import Mathlib

/-!
Verification of the core logic of the `viam-video-image-labeler` video editor
(`src/components/video-editor.tsx` and the timeline component).

Numbers that are IEEE doubles in the source are modelled as rationals (`ℚ`);
JavaScript `Math.round` is modelled by `jsRound` (round half towards +∞), and
the fixed double constant `Math.sqrt(3)` by the rational constant `sqrt3`
(none of the results below depend on its exact value).  The record type that
the source calls `TriangleAnnotation` is named `TriangleAnno` here, and its
`end` field (a Lean keyword) is named `endT`.
-/

/-- Helper `clamp(val, min, max) = Math.min(max, Math.max(min, val))` from
`video-editor.tsx` line 52 (the identical helper also appears in the timeline
component).  Note: when `lo > hi` this returns `hi`, exactly as the source
expression does. -/
def clamp (val lo hi : ℚ) : ℚ := min hi (max lo val)

/-- JavaScript `Math.round` on rationals: round half towards positive
infinity, i.e. `⌊q + 1/2⌋`. -/
def jsRound (q : ℚ) : ℤ := ⌊q + 1/2⌋

/-- Rational stand-in for the IEEE-double value of `Math.sqrt(3)` that the
source computes; the theorems below hold for any value of this constant. -/
def sqrt3 : ℚ := 17320508075688772 / 10000000000000000

/-- The annotation record (`TriangleAnnotation` in `video-editor.tsx` lines
27-37): normalized centroid `(x, y)`, normalized `size`, stroke reference
width, a time range `[start, endT]`, and an optional label. -/
structure TriangleAnno where
  id : String
  x : ℚ
  y : ℚ
  size : ℚ
  color : String
  strokeWidth : ℚ
  start : ℚ
  endT : ℚ
  label : Option String := none
  deriving DecidableEq, Repr

/-- Pixel-space vertices (top, bottom-left, bottom-right) of an annotation's
triangle, exactly as computed inside `isPointInTriangle`
(`video-editor.tsx` lines 115-133) and `drawTriangleOnContext`. -/
def triVertices (tri : TriangleAnno) (videoWidth videoHeight : ℚ) :
    (ℚ × ℚ) × (ℚ × ℚ) × (ℚ × ℚ) :=
  let minDim := min videoWidth videoHeight
  let sideLength := tri.size * minDim
  let triangleHeight := sideLength * sqrt3 / 2
  let halfBase := sideLength / 2
  let centroidOffset := triangleHeight / 3
  let centerX := tri.x * videoWidth
  let centerY := tri.y * videoHeight
  ((centerX, centerY - (triangleHeight - centroidOffset)),
   (centerX - halfBase, centerY + centroidOffset),
   (centerX + halfBase, centerY + centroidOffset))

/-- The barycentric determinant `denom = (by-cy)*(ax-cx) + (cx-bx)*(ay-cy)`
computed by `isPointInTriangle` (`video-editor.tsx` line 140). -/
def baryDenom (tri : TriangleAnno) (videoWidth videoHeight : ℚ) : ℚ :=
  let v := triVertices tri videoWidth videoHeight
  let ax := v.1.1
  let ay := v.1.2
  let bx := v.2.1.1
  let byv := v.2.1.2
  let cx := v.2.2.1
  let cyv := v.2.2.2
  (byv - cyv) * (ax - cx) + (cx - bx) * (ay - cyv)

/-- First barycentric weight of the query point (`a` at line 143 of
`video-editor.tsx`); division is the total rational division. -/
def baryA (px py : ℚ) (tri : TriangleAnno) (videoWidth videoHeight : ℚ) : ℚ :=
  let v := triVertices tri videoWidth videoHeight
  let bx := v.2.1.1
  let byv := v.2.1.2
  let cx := v.2.2.1
  let cyv := v.2.2.2
  let clickX := px * videoWidth
  let clickY := py * videoHeight
  ((byv - cyv) * (clickX - cx) + (cx - bx) * (clickY - cyv)) /
    baryDenom tri videoWidth videoHeight

/-- Second barycentric weight (`b` at line 144 of `video-editor.tsx`). -/
def baryB (px py : ℚ) (tri : TriangleAnno) (videoWidth videoHeight : ℚ) : ℚ :=
  let v := triVertices tri videoWidth videoHeight
  let ax := v.1.1
  let ay := v.1.2
  let cx := v.2.2.1
  let cyv := v.2.2.2
  let clickX := px * videoWidth
  let clickY := py * videoHeight
  ((cyv - ay) * (clickX - cx) + (ax - cx) * (clickY - cyv)) /
    baryDenom tri videoWidth videoHeight

/-- Third barycentric weight (`c = 1 - a - b`, line 145). -/
def baryC (px py : ℚ) (tri : TriangleAnno) (videoWidth videoHeight : ℚ) : ℚ :=
  1 - baryA px py tri videoWidth videoHeight - baryB px py tri videoWidth videoHeight

/-- Hit test `isPointInTriangle` (`video-editor.tsx` lines 112-148): compute
the barycentric weights of the (normalized) query point with respect to the
triangle's pixel-space vertices and report containment; a near-zero
determinant short-circuits to `false`. -/
def isPointInTriangle (px py : ℚ) (tri : TriangleAnno) (videoWidth videoHeight : ℚ) : Bool :=
  let denom := baryDenom tri videoWidth videoHeight
  if |denom| < 1 / 10000000000 then false
  else
    let a := baryA px py tri videoWidth videoHeight
    let b := baryB px py tri videoWidth videoHeight
    let c := 1 - a - b
    decide (0 ≤ a ∧ 0 ≤ b ∧ 0 ≤ c)

/-- Hit scan `findTriangleAtPosition` (`video-editor.tsx` lines 151-165):
filter to annotations whose time range contains `currentTime`, reverse so the
most recently created come first, and return the first whose triangle
contains the point. -/
def findTriangleAtPosition (x y currentTime : ℚ) (annos : List TriangleAnno)
    (videoWidth videoHeight : ℚ) : Option TriangleAnno :=
  let activeAnnos :=
    (annos.filter (fun a => decide (a.start ≤ currentTime ∧ currentTime ≤ a.endT))).reverse
  activeAnnos.find? (fun a => isPointInTriangle x y a videoWidth videoHeight)

/-- The epsilon `1e-6` used by the sampling loop's guard
(`video-editor.tsx` line 470). -/
def epsQ : ℚ := 1 / 1000000

/-- Timestamp-generation loop of `sampleSelection` (`video-editor.tsx` lines
468-473): starting from `t`, push `Math.min(t, end)` and advance by `step`
while `t ≤ end + 1e-6`.  Totality needs `0 < step`, which the caller
establishes by clamping the rate to at least `0.1` Hz. -/
def sampleLoop (endT step : ℚ) (hstep : 0 < step) (t : ℚ) : List ℚ :=
  if h : t ≤ endT + epsQ then
    min t endT :: sampleLoop endT step hstep (t + step)
  else []
termination_by (⌊(endT + epsQ - t) / step⌋ + 1).toNat
decreasing_by
  have hX : (0:ℚ) ≤ (endT + epsQ - t) / step :=
    div_nonneg (by linarith) (le_of_lt hstep)
  have hfl : (0:ℤ) ≤ ⌊(endT + epsQ - t) / step⌋ := Int.floor_nonneg.mpr hX
  have hrw : endT + epsQ - (t + step) = endT + epsQ - t - step := by ring
  have hdiv : (endT + epsQ - (t + step)) / step = (endT + epsQ - t) / step - 1 := by
    rw [hrw, sub_div, div_self (ne_of_gt hstep)]
  rw [hdiv, Int.floor_sub_one]
  omega

/-- The number of iterations the sampling loop performs (derived closed
form, used to characterize `sampleLoop`). -/
def sampleLen (endT step t : ℚ) : ℕ :=
  if t ≤ endT + epsQ then (⌊(endT + epsQ - t) / step⌋ + 1).toNat else 0

/-- Target-timestamp computation of `sampleSelection` (`video-editor.tsx`
lines 464-473): clamp the selection bounds to `[0, duration]`, clamp the
rate to at least `0.1` Hz, and run the loop with step `1/hz`. -/
def sampleTimes (selStart selEnd duration samplingHz : ℚ) : List ℚ :=
  sampleLoop (clamp selEnd 0 duration) (1 / max (1/10) samplingHz)
    (one_div_pos.mpr (lt_of_lt_of_le (by norm_num) (le_max_left _ _)))
    (clamp selStart 0 duration)

/-- A user-visible toast notice: title, description, and whether it used the
destructive (error) variant. -/
structure Toast where
  title : String
  description : String
  destructive : Bool
  deriving DecidableEq, Repr

/-- Toast shown when sampling is invoked with no video loaded
(`video-editor.tsx` line 455). -/
def noVideoToast : Toast :=
  { title := "No video loaded", description := "Load a video before sampling.",
    destructive := true }

/-- Toast shown when sampling is invoked without a usable selection
(`video-editor.tsx` line 459). -/
def noSelectionToast : Toast :=
  { title := "No selection",
    description := "Use Select export region to choose a time range.",
    destructive := true }

/-- Toast shown when the drawing context cannot be acquired
(`video-editor.tsx` line 492). -/
def canvasErrorToast : Toast :=
  { title := "Canvas error", description := "Cannot create drawing context.",
    destructive := true }

/-- Toast shown on completion of a sampling run (`video-editor.tsx` line
547); the frame-count interpolation is not modelled. -/
def samplingCompleteToast : Toast :=
  { title := "Sampling complete", description := "frames captured",
    destructive := false }

/-- Non-destructive notice shown when annotation creation hits an occupied
canonical position (`video-editor.tsx` lines 388-392). -/
def duplicateToast : Toast :=
  { title := "Triangle already exists",
    description := "A triangle already exists at this position. Selected existing triangle.",
    destructive := false }

/-- A captured frame record (`FrameInfo` in `video-editor.tsx` lines 20-25);
the blob and object URL are external resources and are not modelled. -/
structure FrameInfo where
  index : ℕ
  time : ℚ
  deriving DecidableEq, Repr

/-- The selection time range (`{ start, end }`); `end` is named `endT`. -/
structure Sel where
  start : ℚ
  endT : ℚ
  deriving DecidableEq, Repr

/-- The editor/media state that the modelled operations read and write.
`videoLoaded` stands for `videoRef.current` being non-null; `paused` and
`playbackRate` are the media element's fields; `seekLog` records every
assignment to `video.currentTime`, so "no seeking happened" is `seekLog`
unchanged. -/
structure EditorState where
  videoLoaded : Bool
  videoWidth : ℚ
  videoHeight : ℚ
  duration : ℚ
  currentTime : ℚ
  paused : Bool
  playbackRate : ℚ
  isPlaying : Bool
  annotations : List TriangleAnno
  selectedId : Option String
  selection : Option Sel
  samplingHz : ℚ
  frames : List FrameInfo
  sampling : Bool
  progress : ℤ
  toasts : List Toast
  seekLog : List ℚ
  deriving DecidableEq, Repr

/-- The canonical triangle-identity key `round(x*100)_round(y*100)_color`
(`video-editor.tsx` line 72 and lines 379-382). -/
def triangleKeyOf (x y : ℚ) (color : String) : String :=
  toString (jsRound (x * 100)) ++ "_" ++ toString (jsRound (y * 100)) ++ "_" ++ color

/-- Canonical key of an existing annotation record. -/
def annoKey (a : TriangleAnno) : String := triangleKeyOf a.x a.y a.color

/-- Default annotation duration in seconds (`video-editor.tsx` line 185). -/
def defaultAnnoDuration : ℚ := 3

/-- Default annotation size (`video-editor.tsx` line 371). -/
def defaultSize : ℚ := 3 / 100

/-- Default annotation color (`video-editor.tsx` line 372). -/
def defaultColor : String := "#c0c5ce"

/-- Default stroke width (`video-editor.tsx` line 373). -/
def defaultStrokeWidth : ℚ := 5

/-- Click-to-create handler `addAnnotationAt` (`video-editor.tsx` lines
367-408).  `freshId` stands for the `getUUID()` call.  If an annotation with
the same canonical position/color key already exists, it is selected and a
non-destructive notice is appended; otherwise a new record is appended and
selected.  The end bound is `clamp(currentTime + 3, 0, duration ||
currentTime + 3)` with JS falsy-or on `duration`. -/
def addAnnotationAt (st : EditorState) (xNorm yNorm : ℚ) (freshId : String) :
    EditorState :=
  let start := st.currentTime
  let hi := if st.duration = 0 then st.currentTime + defaultAnnoDuration else st.duration
  let endv := clamp (st.currentTime + defaultAnnoDuration) 0 hi
  let x := clamp xNorm 0 1
  let y := clamp yNorm 0 1
  let triangleId := triangleKeyOf x y defaultColor
  match st.annotations.find? (fun a => annoKey a == triangleId) with
  | some existing =>
    { st with selectedId := some existing.id,
              toasts := st.toasts ++ [duplicateToast] }
  | none =>
    let anno : TriangleAnno :=
      { id := freshId, x := x, y := y, size := defaultSize, color := defaultColor,
        strokeWidth := defaultStrokeWidth, start := start, endT := endv }
    { st with annotations := st.annotations ++ [anno], selectedId := some freshId }

/-- Programmatic time mutation `updateAnnoTime` (`video-editor.tsx` lines
442-446): overwrite whichever bounds are supplied, with no validation. -/
def updateAnnoTime (st : EditorState) (id : String)
    (nextStart nextEnd : Option ℚ) : EditorState :=
  { st with annotations := st.annotations.map (fun a =>
      if a.id == id then
        { a with start := nextStart.getD a.start, endT := nextEnd.getD a.endT }
      else a) }

/-- One iteration of the capture loop of `sampleSelection` (`video-editor.tsx`
lines 499-533): seek to the target time (logged), append a frame record, and
set progress to `round(100*(i+1)/N)`.  The accumulator is
`(frames, progress, seekLog)`. -/
def sampleStep (total : ℕ) (acc : List FrameInfo × ℤ × List ℚ) (p : ℕ × ℚ) :
    List FrameInfo × ℤ × List ℚ :=
  (acc.1 ++ [{ index := p.1, time := p.2 }],
   jsRound (((p.1 : ℚ) + 1) / (total : ℚ) * 100),
   acc.2.2 ++ [p.2])

/-- The sampling pipeline `sampleSelection` (`video-editor.tsx` lines
453-553) as a state transformer.  `ctxOk` models whether
`canvas.getContext("2d")` returns a context; `playOk` models whether the
final `video.play()` promise resolves (consulted only when the video was
playing before the run).  Drawing, encoding and blob management are external
effects outside the model; a failed seek is non-fatal in the source and the
seek attempt is still logged. -/
def sampleSelection (st : EditorState) (ctxOk playOk : Bool) : EditorState :=
  if st.videoLoaded = false ∨ st.videoWidth = 0 ∨ st.duration = 0 then
    { st with toasts := st.toasts ++ [noVideoToast] }
  else
    match st.selection with
    | none =>
      { st with toasts := st.toasts ++ [noSelectionToast] }
    | some sel =>
      if sel.endT ≤ sel.start then
        { st with toasts := st.toasts ++ [noSelectionToast] }
      else
        let times := sampleTimes sel.start sel.endT st.duration st.samplingHz
        let st1 := { st with sampling := true, progress := 0, frames := [] }
        let previousRate := st.playbackRate
        let wasPlaying := st.paused = false
        let st2 := { st1 with paused := true, playbackRate := 1 }
        if ctxOk = false then
          { st2 with sampling := false,
                     toasts := st2.toasts ++ [canvasErrorToast] }
        else
          let res := times.enum.foldl (sampleStep times.length) ([], st2.progress, st2.seekLog)
          let st3 := { st2 with
            seekLog := res.2.2, frames := res.1, progress := res.2.1,
            sampling := false, playbackRate := previousRate }
          let st4 :=
            if wasPlaying then
              if playOk = true then { st3 with paused := false, isPlaying := true }
              else { st3 with isPlaying := false }
            else st3
          { st4 with toasts := st4.toasts ++ [samplingCompleteToast] }

/-- Timeline annotation record (`TimelineAnnotation` in the timeline
component); `end` is named `endT`. -/
structure TimelineAnno where
  id : String
  start : ℚ
  endT : ℚ
  color : String
  label : Option String := none
  deriving DecidableEq, Repr

/-- A derived triangle track (`TriangleTrack` in the timeline component). -/
structure TriangleTrack where
  triangleId : String
  triangleLabel : String
  color : String
  annotations : List TimelineAnno
  deriving DecidableEq, Repr

/-- Insertion into the grouping map of `createTriangleTracks`, modelling the
insertion-ordered JS `Map`: push onto the existing entry for the key,
otherwise append a new key at the end. -/
def insertGroup (m : List (String × List TriangleAnno)) (k : String)
    (a : TriangleAnno) : List (String × List TriangleAnno) :=
  match m with
  | [] => [(k, [a])]
  | (k', as) :: rest =>
    if k' = k then (k', as ++ [a]) :: rest
    else (k', as) :: insertGroup rest k a

/-- The `triangleMap` built by `createTriangleTracks` (`video-editor.tsx`
lines 67-78). -/
def groupByKey (l : List TriangleAnno) : List (String × List TriangleAnno) :=
  l.foldl (fun m a => insertGroup m (annoKey a) a) []

/-- JS falsy-or on the optional label (`firstAnnotation.label || default`,
`video-editor.tsx` line 88): an absent or empty label falls back to the
default. -/
def labelOrDefault (lab : Option String) (deflt : String) : String :=
  match lab with
  | none => deflt
  | some s => if s = "" then deflt else s

/-- Conversion of a `TriangleAnno` to the timeline record (`video-editor.tsx`
lines 92-98). -/
def toTimeline (a : TriangleAnno) : TimelineAnno :=
  { id := a.id, start := a.start, endT := a.endT, color := a.color, label := a.label }

/-- Building one track from a key and its (insertion-ordered) group
(`video-editor.tsx` lines 82-106): sort by start time (stably), take the
label and color from the first annotation, and convert the members; the
empty-group case cannot arise from grouping and yields a blank track. -/
def mkTrack (g : String × List TriangleAnno) : TriangleTrack :=
  let sorted := g.2.mergeSort (fun a b => decide (a.start ≤ b.start))
  match sorted with
  | [] => { triangleId := g.1, triangleLabel := "", color := "", annotations := [] }
  | f :: _ =>
    { triangleId := g.1,
      triangleLabel := labelOrDefault f.label
        ("Triangle (" ++ toString (jsRound (f.x * 100)) ++ "%, " ++
          toString (jsRound (f.y * 100)) ++ "%)"),
      color := f.color,
      annotations := sorted.map toTimeline }

/-- Track derivation `createTriangleTracks` (`video-editor.tsx` lines
65-109): group annotations by the canonical key and build one track per key
in key-insertion order. -/
def createTriangleTracks (l : List TriangleAnno) : List TriangleTrack :=
  (groupByKey l).map mkTrack

/-- All members stored under key `k` in a grouping map, in order (analysis
view used to characterize `groupByKey`). -/
def groupLookup (m : List (String × List TriangleAnno)) (k : String) :
    List TriangleAnno :=
  ((m.filter (fun g => g.1 == k)).map (fun g => g.2)).flatten

/-- Membership view of a track list: all annotations grouped under key `k`
(concatenated over the tracks whose `triangleId` is `k`). -/
def trackMembers (tracks : List TriangleTrack) (k : String) : List TimelineAnno :=
  ((tracks.filter (fun tr => tr.triangleId == k)).map
    (fun tr => tr.annotations)).flatten

/-- The tagged drag-state union of the timeline component; the source's
`none` variant is named `idle`. -/
inductive DragState where
  | idle
  | seek (startX : ℚ)
  | move (id : String) (startX origStart origEnd : ℚ)
  | resizeLeft (id : String) (startX origStart origEnd : ℚ)
  | resizeRight (id : String) (startX origStart origEnd : ℚ)
  | selectRange (startX anchorTime : ℚ)
  | selectionMove (startX origStart origEnd : ℚ)
  | selectionLeft (startX origStart origEnd : ℚ)
  | selectionRight (startX origStart origEnd : ℚ)
  deriving DecidableEq, Repr

/-- The mutation emitted by one timeline pointer event: a seek, a partial
time update for one annotation (`onChangeTime`), or a whole-selection
replacement (`onSelectionChange`). -/
inductive TimelineEffect where
  | none
  | seekTo (t : ℚ)
  | changeTime (id : String) (newStart newEnd : Option ℚ)
  | selectionChange (start endT : ℚ)
  deriving DecidableEq, Repr

/-- Pixel-to-time conversion `xToTime` (timeline component): the ratio of
the pointer offset to the rendered width, clamped into `[0, duration]`. -/
def xToTime (clientX rectLeft rectWidth duration : ℚ) : ℚ :=
  clamp ((clientX - rectLeft) / max 1 rectWidth * duration) 0 duration

/-- Pointer-move dispatcher `onScrubPointerMove` (timeline component, lines
391-427 of the source): `dt` is the dragged pixel distance converted to a
time delta against the current rendered width; each resize branch clamps
only the moving bound and leaves the other bound out of the update. -/
def onScrubPointerMove (drag : DragState) (clientX rectLeft rectWidth : ℚ)
    (duration minClipLen : ℚ) (selection : Option Sel) : TimelineEffect :=
  match drag with
  | .idle => .none
  | .seek _ => .seekTo (xToTime clientX rectLeft rectWidth duration)
  | .selectRange _ anchorTime =>
    let t := xToTime clientX rectLeft rectWidth duration
    .selectionChange (min anchorTime t) (max anchorTime t)
  | .move id startX origStart origEnd =>
    let dt := (clientX - startX) / max 1 rectWidth * duration
    let len := origEnd - origStart
    let newStart := clamp (origStart + dt) 0 (max 0 (duration - len))
    .changeTime id (some newStart) (some (newStart + len))
  | .resizeLeft id startX origStart origEnd =>
    let dt := (clientX - startX) / max 1 rectWidth * duration
    .changeTime id (some (clamp (origStart + dt) 0 (origEnd - minClipLen))) none
  | .resizeRight id startX origStart origEnd =>
    let dt := (clientX - startX) / max 1 rectWidth * duration
    .changeTime id none (some (clamp (origEnd + dt) (origStart + minClipLen) duration))
  | .selectionMove startX origStart origEnd =>
    match selection with
    | none => .none
    | some _ =>
      let dt := (clientX - startX) / max 1 rectWidth * duration
      let len := origEnd - origStart
      let newStart := clamp (origStart + dt) 0 (max 0 (duration - len))
      .selectionChange newStart (newStart + len)
  | .selectionLeft startX origStart origEnd =>
    match selection with
    | none => .none
    | some sel =>
      let dt := (clientX - startX) / max 1 rectWidth * duration
      .selectionChange (clamp (origStart + dt) 0 (origEnd - minClipLen)) sel.endT
  | .selectionRight startX origStart origEnd =>
    match selection with
    | none => .none
    | some sel =>
      let dt := (clientX - startX) / max 1 rectWidth * duration
      .selectionChange sel.start (clamp (origEnd + dt) (origStart + minClipLen) duration)

/-- A concrete editor state used by the concrete instances below: a loaded
1280x720 video of duration 10 s, playing at rate 2, with the selection
`[0, 5]` and one previously captured frame. -/
def exState : EditorState :=
  { videoLoaded := true, videoWidth := 1280, videoHeight := 720, duration := 10,
    currentTime := 0, paused := false, playbackRate := 2, isPlaying := true,
    annotations := [], selectedId := none, selection := some { start := 0, endT := 5 },
    samplingHz := 1, frames := [{ index := 0, time := 1/2 }], sampling := false,
    progress := 0, toasts := [], seekLog := [] }

/-- A concrete editor state whose playhead sits exactly at the media
duration (10 s), with no annotations yet. -/
def atEndState : EditorState :=
  { videoLoaded := true, videoWidth := 1280, videoHeight := 720, duration := 10,
    currentTime := 10, paused := true, playbackRate := 1, isPlaying := false,
    annotations := [], selectedId := none, selection := none,
    samplingHz := 1, frames := [], sampling := false,
    progress := 0, toasts := [], seekLog := [] }

/-- A concrete annotation at the canonical default position/color. -/
def exAnno : TriangleAnno :=
  { id := "anno-1", x := 1/2, y := 1/2, size := 3/100, color := "#c0c5ce",
    strokeWidth := 5, start := 0, endT := 3 }

/-- A second concrete annotation at a different canonical position. -/
def exAnno2 : TriangleAnno :=
  { id := "anno-2", x := 1/4, y := 1/4, size := 3/100, color := "#f97316",
    strokeWidth := 5, start := 1, endT := 4 }

/-- A concrete editor state holding exactly `exAnno`. -/
def oneAnnoState : EditorState :=
  { videoLoaded := true, videoWidth := 1280, videoHeight := 720, duration := 10,
    currentTime := 0, paused := true, playbackRate := 1, isPlaying := false,
    annotations := [exAnno], selectedId := none, selection := none,
    samplingHz := 1, frames := [], sampling := false,
    progress := 0, toasts := [], seekLog := [] }

theorem find?_eq_head?_filter {α : Type} (p : α → Bool) (l : List α) :
    l.find? p = (l.filter p).head? := by
  induction l with
  | nil => rfl
  | cons a l ih =>
    by_cases h : p a = true
    · simp [List.find?_cons, List.filter_cons, h]
    · simp only [List.find?_cons, List.filter_cons, h]
      simp only [h, Bool.false_eq_true, if_false, ite_false]
      exact ih

theorem isPointInTriangle_eq (px py : ℚ) (tri : TriangleAnno)
    (videoWidth videoHeight : ℚ) :
    isPointInTriangle px py tri videoWidth videoHeight =
      if |baryDenom tri videoWidth videoHeight| < 1 / 10000000000 then false
      else
        decide (0 ≤ baryA px py tri videoWidth videoHeight ∧
          0 ≤ baryB px py tri videoWidth videoHeight ∧
          0 ≤ 1 - baryA px py tri videoWidth videoHeight -
            baryB px py tri videoWidth videoHeight) := rfl

/-- Claim C8: `isPointInTriangle` reports containment iff all three
barycentric weights of the point with respect to the triangle's pixel-space
vertices lie in `[0, 1]` inclusive and the barycentric determinant is not
near zero (at least `10⁻¹⁰` in absolute value); in particular a degenerate
(near-zero-determinant) triangle is reported as "not contained". -/
theorem isPointInTriangle_iff_bary (px py : ℚ) (tri : TriangleAnno)
    (videoWidth videoHeight : ℚ) :
    isPointInTriangle px py tri videoWidth videoHeight = true ↔
      (1 / 10000000000 ≤ |baryDenom tri videoWidth videoHeight| ∧
       (0 ≤ baryA px py tri videoWidth videoHeight ∧
         baryA px py tri videoWidth videoHeight ≤ 1) ∧
       (0 ≤ baryB px py tri videoWidth videoHeight ∧
         baryB px py tri videoWidth videoHeight ≤ 1) ∧
       (0 ≤ baryC px py tri videoWidth videoHeight ∧
         baryC px py tri videoWidth videoHeight ≤ 1)) := by
  rw [isPointInTriangle_eq]
  by_cases hdeg : |baryDenom tri videoWidth videoHeight| < 1 / 10000000000
  · rw [if_pos hdeg]
    simp only [Bool.false_eq_true, false_iff, not_and]
    intro hge
    exact absurd hdeg (not_lt.mpr hge)
  · rw [if_neg hdeg, decide_eq_true_eq]
    unfold baryC
    constructor
    · rintro ⟨h1, h2, h3⟩
      refine ⟨not_lt.mp hdeg, ⟨h1, by linarith⟩, ⟨h2, by linarith⟩, ⟨h3, by linarith⟩⟩
    · rintro ⟨-, ⟨h1, -⟩, ⟨h2, -⟩, ⟨h3, -⟩⟩
      exact ⟨h1, h2, h3⟩

/-- Claim C6: `findTriangleAtPosition` returns `none` exactly when no
annotation whose time range contains the query time has a triangle
containing the query point, and in general it returns the last annotation in
creation order (the most recently created one) among those that are active
and contain the point. -/
theorem findTriangleAtPosition_topmost (x y t : ℚ) (annos : List TriangleAnno)
    (videoWidth videoHeight : ℚ) :
    (findTriangleAtPosition x y t annos videoWidth videoHeight = none ↔
       ∀ a ∈ annos, a.start ≤ t ∧ t ≤ a.endT →
         isPointInTriangle x y a videoWidth videoHeight = false) ∧
    findTriangleAtPosition x y t annos videoWidth videoHeight =
      (annos.filter (fun a =>
        decide (a.start ≤ t ∧ t ≤ a.endT) &&
          isPointInTriangle x y a videoWidth videoHeight)).getLast? := by
  have hmain : findTriangleAtPosition x y t annos videoWidth videoHeight =
      (annos.filter (fun a =>
        decide (a.start ≤ t ∧ t ≤ a.endT) &&
          isPointInTriangle x y a videoWidth videoHeight)).getLast? := by
    unfold findTriangleAtPosition
    rw [find?_eq_head?_filter, List.filter_reverse, List.head?_reverse,
      List.filter_filter]
    congr 1
    refine List.filter_congr ?_
    intro a _
    exact Bool.and_comm _ _
  refine ⟨?_, hmain⟩
  rw [hmain, List.getLast?_eq_none_iff, List.filter_eq_nil_iff]
  constructor
  · intro h a ha hact
    have := h a ha
    simp only [Bool.and_eq_true, decide_eq_true_eq, not_and] at this
    exact Bool.eq_false_iff.mpr (this hact)
  · intro h a ha
    simp only [Bool.and_eq_true, decide_eq_true_eq, not_and]
    intro hact
    exact Bool.eq_false_iff.mp (h a ha hact)

theorem sampleLoop_unfold (endT step : ℚ) (hstep : 0 < step) (t : ℚ) :
    sampleLoop endT step hstep t =
      if t ≤ endT + epsQ then min t endT :: sampleLoop endT step hstep (t + step)
      else [] := by
  rw [sampleLoop]
  split <;> rfl

theorem sampleLoop_closed (endT step : ℚ) (hstep : 0 < step) (t : ℚ) :
    sampleLoop endT step hstep t =
      (List.range (sampleLen endT step t)).map
        (fun i : ℕ => min (t + (i : ℚ) * step) endT) := by
  generalize hn : sampleLen endT step t = n
  induction n generalizing t with
  | zero =>
    unfold sampleLen at hn
    by_cases h : t ≤ endT + epsQ
    · exfalso
      rw [if_pos h] at hn
      have hX : (0:ℚ) ≤ (endT + epsQ - t) / step := div_nonneg (by linarith) hstep.le
      have hfl := Int.floor_nonneg.mpr hX
      omega
    · rw [sampleLoop_unfold, if_neg h]
      simp
  | succ n ih =>
    unfold sampleLen at hn
    by_cases h : t ≤ endT + epsQ
    · rw [if_pos h] at hn
      have hdiv : (endT + epsQ - (t + step)) / step = (endT + epsQ - t) / step - 1 := by
        have hrw : endT + epsQ - (t + step) = endT + epsQ - t - step := by ring
        rw [hrw, sub_div, div_self (ne_of_gt hstep)]
      have hnext : sampleLen endT step (t + step) = n := by
        unfold sampleLen
        by_cases h2 : t + step ≤ endT + epsQ
        · rw [if_pos h2, hdiv, Int.floor_sub_one]
          have hX : (0:ℚ) ≤ (endT + epsQ - (t + step)) / step :=
            div_nonneg (by linarith) hstep.le
          have hfl := Int.floor_nonneg.mpr hX
          rw [hdiv, Int.floor_sub_one] at hfl
          omega
        · rw [if_neg h2]
          have hX1 : (endT + epsQ - t) / step < 1 := by
            rw [div_lt_one hstep]
            have := not_le.mp h2
            linarith
          have hX0 : (0:ℚ) ≤ (endT + epsQ - t) / step := div_nonneg (by linarith) hstep.le
          have h0 : ⌊(endT + epsQ - t) / step⌋ = 0 :=
            Int.floor_eq_zero_iff.mpr ⟨hX0, hX1⟩
          omega
      rw [sampleLoop_unfold, if_pos h, ih (t + step) hnext, List.range_succ_eq_map,
        List.map_cons, List.map_map]
      congr 1
      · norm_num
      · refine List.map_congr_left ?_
        intro i _
        simp only [Function.comp_apply]
        congr 1
        push_cast
        ring
    · rw [if_neg h] at hn
      exact absurd hn (by omega)

theorem sampleLoop_length (endT step : ℚ) (hstep : 0 < step) (t : ℚ) :
    (sampleLoop endT step hstep t).length = sampleLen endT step t := by
  rw [sampleLoop_closed, List.length_map, List.length_range]

theorem clamp_eq_self {v lo hi : ℚ} (h1 : lo ≤ v) (h2 : v ≤ hi) : clamp v lo hi = v := by
  unfold clamp
  rw [max_eq_right h1, min_eq_right h2]

theorem sampleTimes_closed_form (selStart selEnd duration samplingHz : ℚ)
    (h1 : 0 ≤ selStart) (h2 : selStart ≤ duration)
    (h3 : 0 ≤ selEnd) (h4 : selEnd ≤ duration) :
    sampleTimes selStart selEnd duration samplingHz =
      (List.range (sampleLen selEnd (1 / max (1/10) samplingHz) selStart)).map
        (fun i : ℕ => min (selStart + (i : ℚ) * (1 / max (1/10) samplingHz)) selEnd) := by
  unfold sampleTimes
  rw [clamp_eq_self h1 h2, clamp_eq_self h3 h4, sampleLoop_closed]

/-- Claim C10: for every selection and every finite sampling-rate value,
including zero and negative rates, the timestamp loop of `sampleSelection`
terminates with a finite list: the rate is clamped to at least `0.1` Hz
before the step `1/hz` is formed, so the step is strictly positive, and the
produced list has the explicit finite length `sampleLen`. -/
theorem sampleTimes_total (selStart selEnd duration samplingHz : ℚ) :
    (1/10 : ℚ) ≤ max (1/10) samplingHz ∧
    0 < 1 / max (1/10) samplingHz ∧
    (sampleTimes selStart selEnd duration samplingHz).length =
      sampleLen (clamp selEnd 0 duration) (1 / max (1/10) samplingHz)
        (clamp selStart 0 duration) := by
  refine ⟨le_max_left _ _,
    one_div_pos.mpr (lt_of_lt_of_le (by norm_num) (le_max_left _ _)), ?_⟩
  unfold sampleTimes
  exact sampleLoop_length _ _ _ _

theorem epsQ_pos : (0:ℚ) < epsQ := by norm_num [epsQ]

/-- Claim C1 (amended): for a selection `[selStart, selEnd] ⊆ [0, duration]`
with `selStart < selEnd` and any rate, the target-timestamp sequence of
`sampleSelection` begins at `selStart`, its `i`-th element is
`min (selStart + i/hz) selEnd` (advancing in steps of `1/hz`, with no element
exceeding `selEnd`), and its final element equals exactly `selEnd` whenever
the interval length is an exact natural multiple of the step `1/hz`; in
particular the range `[0, 10]` at `hz = 2` yields exactly 21 timestamps with
the last exactly `10`.  (When the step does not divide the interval the
final element can fall short of `selEnd`; see the counterexample.) -/
theorem sampleTimes_boundaries (selStart selEnd duration samplingHz : ℚ)
    (h0 : 0 ≤ selStart) (hlt : selStart < selEnd) (hdur : selEnd ≤ duration) :
    (sampleTimes selStart selEnd duration samplingHz).head? = some selStart ∧
    (∀ i : ℕ, i < (sampleTimes selStart selEnd duration samplingHz).length →
      (sampleTimes selStart selEnd duration samplingHz)[i]? =
        some (min (selStart + (i : ℚ) * (1 / max (1/10) samplingHz)) selEnd)) ∧
    ((∃ k : ℕ, selEnd = selStart + (k : ℚ) * (1 / max (1/10) samplingHz)) →
      (sampleTimes selStart selEnd duration samplingHz).getLast? = some selEnd) ∧
    (sampleTimes 0 10 10 2).length = 21 ∧
    (sampleTimes 0 10 10 2).getLast? = some 10 := by
  have hstep : (0:ℚ) < 1 / max (1/10) samplingHz :=
    one_div_pos.mpr (lt_of_lt_of_le (by norm_num) (le_max_left _ _))
  have hcf := sampleTimes_closed_form selStart selEnd duration samplingHz h0
    (le_trans hlt.le hdur) (le_trans h0 hlt.le) hdur
  set step := 1 / max (1/10) samplingHz with hstepdef
  have hle : selStart ≤ selEnd + epsQ := by
    have := epsQ_pos
    linarith
  have hfl0 : (0:ℤ) ≤ ⌊(selEnd + epsQ - selStart) / step⌋ :=
    Int.floor_nonneg.mpr (div_nonneg (by linarith) hstep.le)
  have hNval : sampleLen selEnd step selStart =
      (⌊(selEnd + epsQ - selStart) / step⌋).toNat + 1 := by
    unfold sampleLen
    rw [if_pos hle]
    omega
  have hmax2 : max (1/10 : ℚ) 2 = 2 := max_eq_right (by norm_num)
  have hcf2 := sampleTimes_closed_form 0 10 10 2 (by norm_num) (by norm_num)
    (by norm_num) (by norm_num)
  have hlen2 : sampleLen 10 (1 / max (1/10 : ℚ) 2) 0 = 21 := by
    rw [hmax2]
    unfold sampleLen epsQ
    rw [if_pos (by norm_num)]
    norm_num
    rfl
  refine ⟨?_, ?_, ?_, ?_, ?_⟩
  · rw [hcf, List.head?_eq_getElem?, List.getElem?_map,
      List.getElem?_range (by omega : 0 < sampleLen selEnd step selStart)]
    simp only [Option.map_some', Nat.cast_zero, zero_mul, add_zero]
    exact congrArg some (min_eq_left hlt.le)
  · intro i hi
    rw [hcf, List.length_map, List.length_range] at hi
    rw [hcf, List.getElem?_map, List.getElem?_range hi]
    simp only [Option.map_some']
  · rintro ⟨k, hk⟩
    rw [hcf, List.getLast?_eq_getElem?, List.length_map, List.length_range, hNval,
      Nat.add_sub_cancel, List.getElem?_map,
      List.getElem?_range (Nat.lt_succ_self _)]
    simp only [Option.map_some']
    refine congrArg some (min_eq_right ?_)
    have h1 : (k:ℤ) ≤ ⌊(selEnd + epsQ - selStart) / step⌋ := by
      apply Int.le_floor.mpr
      have hXk : (selEnd + epsQ - selStart) / step = (k:ℚ) + epsQ / step := by
        rw [hk]
        field_simp
        ring
      rw [hXk]
      have : (0:ℚ) ≤ epsQ / step := div_nonneg epsQ_pos.le hstep.le
      push_cast
      linarith
    have h2 : (k:ℚ) ≤ ((⌊(selEnd + epsQ - selStart) / step⌋.toNat : ℕ) : ℚ) := by
      have : (k:ℤ) ≤ (⌊(selEnd + epsQ - selStart) / step⌋.toNat : ℤ) := by
        rwa [Int.toNat_of_nonneg hfl0]
      exact_mod_cast this
    have h3 := mul_le_mul_of_nonneg_right h2 hstep.le
    linarith
  · rw [hcf2, List.length_map, List.length_range, hlen2]
  · rw [hcf2, List.getLast?_eq_getElem?, List.length_map, List.length_range, hlen2]
    rw [List.getElem?_map, List.getElem?_range (by norm_num : 21 - 1 < 21)]
    simp only [Option.map_some']
    rw [hmax2]
    norm_num

/-- Claim C1 is falsified as stated: for the selection `[0, 10]` with rate
`hz = 1/4 > 0` (so `step = 4`), the generated timestamps are `0, 4, 8` and
the final element is `8`, not the range end `10`: the last timestamp is not
clamped to `end` when the step does not divide the interval. -/
theorem sampleTimes_last_ne_end :
    (0:ℚ) < 1/4 ∧ (0:ℚ) < 10 ∧
    (sampleTimes 0 10 10 (1/4)).getLast? = some 8 ∧ (8:ℚ) ≠ 10 := by
  have hmax : max (1/10 : ℚ) (1/4) = 1/4 := max_eq_right (by norm_num)
  have hstep4 : (1:ℚ) / max (1/10) (1/4) = 4 := by
    rw [hmax]
    norm_num
  have hcf := sampleTimes_closed_form 0 10 10 (1/4) (by norm_num) (by norm_num)
    (by norm_num) (by norm_num)
  have hlen : sampleLen 10 (1 / max (1/10 : ℚ) (1/4)) 0 = 3 := by
    rw [hstep4]
    unfold sampleLen epsQ
    rw [if_pos (by norm_num)]
    norm_num
    rfl
  refine ⟨by norm_num, by norm_num, ?_, by norm_num⟩
  rw [hcf, List.getLast?_eq_getElem?, List.length_map, List.length_range, hlen]
  rw [List.getElem?_map, List.getElem?_range (by norm_num : 3 - 1 < 3)]
  simp only [Option.map_some']
  rw [hstep4]
  norm_num

theorem sampleTimes_boundaries_witness :
    (sampleTimes 0 10 10 2).head? = some 0 :=
  (sampleTimes_boundaries 0 10 10 2 (by norm_num) (by norm_num) (by norm_num)).1

theorem clamp_mem {v lo hi : ℚ} (h : lo ≤ hi) :
    lo ≤ clamp v lo hi ∧ clamp v lo hi ≤ hi := by
  unfold clamp
  exact ⟨le_min h (le_max_left lo v), min_le_left hi _⟩

/-- Claim C3 (amended): annotation creation yields `end ≥ start` whenever the
playhead is nonnegative and within the media duration (or no duration is
set), with `end > start` strictly whenever the playhead is strictly before
the duration or no duration is set — at playhead = duration the created
record has `end = start`; and programmatic mutation (`updateAnnoTime`)
applies the supplied bounds verbatim with no validation, so it can store
`end < start` (shown on a concrete state). -/
theorem addAnnotationAt_time_bounds (st : EditorState) (x y : ℚ) (fid : String)
    (hct : 0 ≤ st.currentTime)
    (hcd : st.currentTime ≤ st.duration ∨ st.duration = 0) :
    (∀ a ∈ (addAnnotationAt st x y fid).annotations,
      a ∈ st.annotations ∨
        (a.start = st.currentTime ∧ a.start ≤ a.endT ∧
          ((st.currentTime < st.duration ∨ st.duration = 0) → a.start < a.endT))) ∧
    (updateAnnoTime oneAnnoState "anno-1" (some 5) (some 2)).annotations.map
      (fun a => (a.start, a.endT)) = [(5, 2)] := by
  constructor
  · intro a ha
    simp only [addAnnotationAt] at ha
    rcases hf : st.annotations.find?
        (fun b => annoKey b == triangleKeyOf (clamp x 0 1) (clamp y 0 1) defaultColor)
      with - | ex
    · rw [hf] at ha
      rcases List.mem_append.mp ha with hmem | hmem
      · exact Or.inl hmem
      · right
        have ha2 := List.mem_singleton.mp hmem
        subst ha2
        have h3 : (0:ℚ) < defaultAnnoDuration := by norm_num [defaultAnnoDuration]
        have hmax : max 0 (st.currentTime + defaultAnnoDuration) =
            st.currentTime + defaultAnnoDuration := max_eq_right (by linarith)
        refine ⟨rfl, ?_, ?_⟩
        · show st.currentTime ≤ clamp (st.currentTime + defaultAnnoDuration) 0 _
          unfold clamp
          rw [hmax]
          rcases hcd with hle | h0
          · by_cases hz : st.duration = 0
            · rw [if_pos hz]
              exact le_min (by linarith) (by linarith)
            · rw [if_neg hz]
              exact le_min hle (by linarith)
          · rw [if_pos h0]
            exact le_min (by linarith) (by linarith)
        · intro hstrict
          show st.currentTime < clamp (st.currentTime + defaultAnnoDuration) 0 _
          unfold clamp
          rw [hmax]
          rcases hstrict with hlt | h0
          · by_cases hz : st.duration = 0
            · rw [if_pos hz]
              exact lt_min (by linarith) (by linarith)
            · rw [if_neg hz]
              exact lt_min hlt (by linarith)
          · rw [if_pos h0]
            exact lt_min (by linarith) (by linarith)
    · rw [hf] at ha
      exact Or.inl ha
  · simp [updateAnnoTime, oneAnnoState, exAnno]

/-- Claim C3 counterexample: with the playhead exactly at the media duration
(state `atEndState`: duration 10, playhead 10), creating an annotation
produces a record with `start = end = 10`, so the invariant `end > start`
fails immediately at creation. -/
theorem addAnnotationAt_zero_length_record :
    ((addAnnotationAt atEndState (1/2) (1/2) "new-id").annotations.map
      (fun a => (a.start, a.endT))) = [((10:ℚ), (10:ℚ))] ∧ ¬((10:ℚ) < 10) := by
  refine ⟨?_, lt_irrefl 10⟩
  have hclamp : clamp (10 + defaultAnnoDuration) 0 10 = 10 := by
    unfold clamp defaultAnnoDuration
    rw [max_eq_right (by norm_num), min_eq_left (by norm_num)]
  simp [addAnnotationAt, atEndState, hclamp]

/-- Claim C7: when the canonical key of the clicked (clamped) position with
the default color matches an existing annotation — the first match being
`ex` — `addAnnotationAt` creates no record: the collection and its count are
unchanged, the existing annotation becomes selected, and a non-destructive
user-visible notice is appended instead of an error. -/
theorem addAnnotationAt_duplicate_noop (st : EditorState) (x y : ℚ) (fid : String)
    (ex : TriangleAnno)
    (hfind : st.annotations.find?
      (fun a => annoKey a == triangleKeyOf (clamp x 0 1) (clamp y 0 1) defaultColor) =
        some ex) :
    (addAnnotationAt st x y fid).annotations = st.annotations ∧
    (addAnnotationAt st x y fid).annotations.length = st.annotations.length ∧
    (addAnnotationAt st x y fid).selectedId = some ex.id ∧
    (addAnnotationAt st x y fid).toasts = st.toasts ++ [duplicateToast] ∧
    duplicateToast.destructive = false := by
  simp only [addAnnotationAt, hfind]
  exact ⟨trivial, trivial, trivial, trivial, rfl⟩

theorem addAnnotationAt_duplicate_noop_witness :
    (addAnnotationAt oneAnnoState (1/2) (1/2) "other-id").annotations =
      oneAnnoState.annotations :=
  (addAnnotationAt_duplicate_noop oneAnnoState (1/2) (1/2) "other-id" exAnno
    (by
      have hx : clamp (1/2 : ℚ) 0 1 = 1/2 := clamp_eq_self (by norm_num) (by norm_num)
      simp only [oneAnnoState, exAnno, annoKey, defaultColor, List.find?, hx,
        beq_self_eq_true])).1

/-- Claim C2 (amended): when the 2D drawing context cannot be acquired, the
run aborts with a destructive user-visible toast before any seeking happens
(the seek log is unchanged) and without touching the annotations, and the
sampling flag is reset — but the previously captured frame set has already
been released and replaced by the empty set at that point, rather than being
left exactly as it was before the run. -/
theorem sampleSelection_ctx_failure (st : EditorState) (playOk : Bool)
    (hv : st.videoLoaded = true) (hw : st.videoWidth ≠ 0) (hd : st.duration ≠ 0)
    (sel : Sel) (hsel : st.selection = some sel) (hlt : sel.start < sel.endT) :
    (sampleSelection st false playOk).seekLog = st.seekLog ∧
    (sampleSelection st false playOk).frames = [] ∧
    (sampleSelection st false playOk).annotations = st.annotations ∧
    (sampleSelection st false playOk).sampling = false ∧
    (sampleSelection st false playOk).toasts = st.toasts ++ [canvasErrorToast] ∧
    canvasErrorToast.destructive = true := by
  have hguard : ¬(st.videoLoaded = false ∨ st.videoWidth = 0 ∨ st.duration = 0) := by
    simp [hv, hw, hd]
  simp only [sampleSelection, if_neg hguard, hsel, if_neg (not_le.mpr hlt)]
  norm_num [canvasErrorToast]

theorem sampleSelection_ctx_failure_witness :
    (sampleSelection exState false true).seekLog = exState.seekLog :=
  (sampleSelection_ctx_failure exState true rfl
    (by norm_num [exState]) (by norm_num [exState])
    { start := 0, endT := 5 } rfl (by norm_num)).1

/-- Claim C2 counterexample: starting from `exState`, which holds one
previously captured frame, a run whose context acquisition fails still ends
with an empty frame set: the previous frames were released and replaced
before the surface check, so the frame set is not left as it was. -/
theorem sampleSelection_ctx_clears_frames :
    (sampleSelection exState false true).frames = [] ∧
    exState.frames = [{ index := 0, time := 1/2 }] ∧
    ([] : List FrameInfo) ≠ [{ index := 0, time := 1/2 }] := by
  refine ⟨?_, rfl, by simp⟩
  have hguard : ¬(exState.videoLoaded = false ∨ exState.videoWidth = 0 ∨
      exState.duration = 0) := by
    norm_num [exState]
  have hsel : exState.selection = some { start := 0, endT := 5 } := rfl
  have hlt : ¬((5:ℚ) ≤ 0) := by norm_num
  simp only [sampleSelection, if_neg hguard, hsel, if_neg hlt]
  norm_num

/-- Claim C4 (amended): `sampleSelection` snapshots the playback rate and
paused state, forces rate 1 and paused during the run, and on the successful
completion path restores the snapshotted rate, and the paused state whenever
the resume `play()` succeeds; but on the surface-acquisition-failure exit
path nothing is restored: the rate stays forced to 1 and the source stays
paused. -/
theorem sampleSelection_rate_restore (st : EditorState) (playOk : Bool)
    (hv : st.videoLoaded = true) (hw : st.videoWidth ≠ 0) (hd : st.duration ≠ 0)
    (sel : Sel) (hsel : st.selection = some sel) (hlt : sel.start < sel.endT)
    (hplay : st.paused = false → playOk = true) :
    ((sampleSelection st true playOk).playbackRate = st.playbackRate ∧
     (sampleSelection st true playOk).paused = st.paused) ∧
    ((sampleSelection st false playOk).playbackRate = 1 ∧
     (sampleSelection st false playOk).paused = true) := by
  have hguard : ¬(st.videoLoaded = false ∨ st.videoWidth = 0 ∨ st.duration = 0) := by
    simp [hv, hw, hd]
  simp only [sampleSelection, if_neg hguard, hsel, if_neg (not_le.mpr hlt)]
  norm_num
  cases hp : st.paused with
  | true => simp [hp]
  | false =>
    have := hplay hp
    subst this
    simp [hp]

theorem sampleSelection_rate_restore_witness :
    (sampleSelection exState true true).playbackRate = exState.playbackRate :=
  (sampleSelection_rate_restore exState true rfl
    (by norm_num [exState]) (by norm_num [exState])
    { start := 0, endT := 5 } rfl (by norm_num) (fun _ => rfl)).1.1

/-- Claim C4 counterexample: starting from `exState` (rate 2, playing), a run
whose context acquisition fails exits with rate 1 and paused: the snapshotted
rate 2 and play state are not restored on that exit path. -/
theorem sampleSelection_ctx_rate_not_restored :
    (sampleSelection exState false true).playbackRate = 1 ∧
    (sampleSelection exState false true).paused = true ∧
    exState.playbackRate = 2 ∧ exState.paused = false ∧ (1:ℚ) ≠ 2 := by
  have hguard : ¬(exState.videoLoaded = false ∨ exState.videoWidth = 0 ∨
      exState.duration = 0) := by
    norm_num [exState]
  have hsel : exState.selection = some { start := 0, endT := 5 } := rfl
  have hlt : ¬((5:ℚ) ≤ 0) := by norm_num
  simp only [sampleSelection, if_neg hguard, hsel, if_neg hlt]
  norm_num [exState]

/-- Claim C5 (amended): after every pointer-move of a resize-handle gesture
(annotation resize-left/right and selection-left/right), only the moving
bound is written (the other bound is absent from the update or copied from
the unchanged selection), and — provided the dragged range had room for the
clamp, i.e. `minClipLen ≤ origEnd` for a left handle and `origStart +
minClipLen ≤ duration` for a right handle — the resulting range keeps length
at least `minClipLen` and the moving bound stays inside `[0, duration]`, for
every pointer position.  (Without the room hypotheses the clamp degenerates;
see the counterexample.) -/
theorem resize_move_bounds (id : String) (startX clientX rectLeft rectWidth : ℚ)
    (duration minClipLen origStart origEnd : ℚ) (sel : Sel)
    (hmin : 0 ≤ minClipLen) (h0 : 0 ≤ origStart) (hse : origStart ≤ origEnd)
    (hd : origEnd ≤ duration)
    (hroomL : minClipLen ≤ origEnd) (hroomR : origStart + minClipLen ≤ duration)
    (hselS : sel.start = origStart) (hselE : sel.endT = origEnd) :
    (∀ ns, onScrubPointerMove (.resizeLeft id startX origStart origEnd)
        clientX rectLeft rectWidth duration minClipLen (some sel) =
          .changeTime id (some ns) none →
      minClipLen ≤ origEnd - ns ∧ 0 ≤ ns ∧ ns ≤ duration) ∧
    (∀ ne, onScrubPointerMove (.resizeRight id startX origStart origEnd)
        clientX rectLeft rectWidth duration minClipLen (some sel) =
          .changeTime id none (some ne) →
      minClipLen ≤ ne - origStart ∧ 0 ≤ ne ∧ ne ≤ duration) ∧
    (∀ ns e, onScrubPointerMove (.selectionLeft startX origStart origEnd)
        clientX rectLeft rectWidth duration minClipLen (some sel) =
          .selectionChange ns e →
      e = sel.endT ∧ minClipLen ≤ e - ns ∧ 0 ≤ ns ∧ ns ≤ duration) ∧
    (∀ s ne, onScrubPointerMove (.selectionRight startX origStart origEnd)
        clientX rectLeft rectWidth duration minClipLen (some sel) =
          .selectionChange s ne →
      s = sel.start ∧ minClipLen ≤ ne - s ∧ 0 ≤ ne ∧ ne ≤ duration) := by
  have hL := clamp_mem (v := origStart + (clientX - startX) / max 1 rectWidth * duration)
    (sub_nonneg.mpr hroomL)
  have hR := clamp_mem (v := origEnd + (clientX - startX) / max 1 rectWidth * duration)
    (hroomR)
  refine ⟨?_, ?_, ?_, ?_⟩
  · intro ns hns
    simp only [onScrubPointerMove] at hns
    injection hns with h1 h2 h3
    injection h2 with h2
    subst h2
    exact ⟨by linarith [hL.2], hL.1, by linarith [hL.2]⟩
  · intro ne hne
    simp only [onScrubPointerMove] at hne
    injection hne with h1 h2 h3
    injection h3 with h3
    subst h3
    exact ⟨by linarith [hR.1], by linarith [hR.1], hR.2⟩
  · intro ns e hns
    simp only [onScrubPointerMove] at hns
    injection hns with h1 h2
    subst h1
    subst h2
    refine ⟨rfl, ?_, hL.1, by linarith [hL.2]⟩
    rw [hselE]
    linarith [hL.2]
  · intro s ne hne
    simp only [onScrubPointerMove] at hne
    injection hne with h1 h2
    subst h1
    subst h2
    refine ⟨rfl, ?_, by linarith [hR.1], hR.2⟩
    rw [hselS]
    linarith [hR.1]

theorem resize_move_bounds_witness :
    (1:ℚ)/10 ≤ 3 - 2 ∧ (0:ℚ) ≤ 2 ∧ (2:ℚ) ≤ 10 :=
  (resize_move_bounds "a" 0 0 0 600 10 (1/10) 2 3 { start := 2, endT := 3 }
    (by norm_num) (by norm_num) (by norm_num) (by norm_num) (by norm_num)
    (by norm_num) rfl rfl).1 2 (by
      have h1 : ((0:ℚ) - 0) / max 1 600 * 10 = 0 := by
        rw [sub_self, zero_div, zero_mul]
      have hc : clamp ((2:ℚ) + (0 - 0) / max 1 600 * 10) 0 (3 - 1/10) = 2 := by
        rw [h1, add_zero]
        unfold clamp
        rw [max_eq_right (by norm_num : (0:ℚ) ≤ 2),
          min_eq_right (by norm_num : (2:ℚ) ≤ 3 - 1/10)]
      simp only [onScrubPointerMove, hc])

/-- Claim C5 counterexample: with duration 10 and the default minClipLen of
0.1, dragging the right resize handle of an annotation spanning
`[9.95, 10]` (creatable by a click with the playhead at 9.95 s) emits
`end := 10` even with the pointer unmoved, leaving the range `[9.95, 10]` of
length `0.05 < 0.1`: the clamp `clamp(origEnd + dt, origStart + minClipLen,
duration)` degenerates when `origStart + minClipLen > duration`. -/
theorem resizeRight_minClipLen_violated :
    onScrubPointerMove (.resizeRight "a" 0 (199/20) 10) 0 0 600 10 (1/10) none =
      .changeTime "a" none (some 10) ∧ (10:ℚ) - 199/20 < 1/10 := by
  constructor
  · have h1 : ((0:ℚ) - 0) / max 1 600 * 10 = 0 := by
      rw [sub_self, zero_div, zero_mul]
    have hc : clamp ((10:ℚ) + (0 - 0) / max 1 600 * 10) (199/20 + 1/10) 10 = 10 := by
      rw [h1, add_zero]
      unfold clamp
      rw [max_eq_left (by norm_num : (10:ℚ) ≤ 199/20 + 1/10),
        min_eq_left (by norm_num : (10:ℚ) ≤ 199/20 + 1/10)]
    simp only [onScrubPointerMove, hc]
  · norm_num

theorem insertGroup_keys (m : List (String × List TriangleAnno)) (k : String)
    (a : TriangleAnno) :
    (insertGroup m k a).map Prod.fst =
      if k ∈ m.map Prod.fst then m.map Prod.fst else m.map Prod.fst ++ [k] := by
  induction m with
  | nil => simp [insertGroup]
  | cons g rest ih =>
    obtain ⟨k0, as⟩ := g
    by_cases h : k0 = k
    · subst h
      simp [insertGroup]
    · simp only [insertGroup, if_neg h, List.map_cons, ih, List.mem_cons]
      by_cases h2 : k ∈ rest.map Prod.fst
      · simp [h2, Ne.symm h]
      · simp [h2, Ne.symm h]

theorem insertGroup_nodup {m : List (String × List TriangleAnno)} (k : String)
    (a : TriangleAnno) (h : (m.map Prod.fst).Nodup) :
    ((insertGroup m k a).map Prod.fst).Nodup := by
  rw [insertGroup_keys]
  by_cases h2 : k ∈ m.map Prod.fst
  · simpa [h2] using h
  · rw [if_neg h2]
    exact List.Nodup.append h (List.nodup_singleton k)
      (List.disjoint_singleton.mpr h2)

theorem groupLookup_nil_of_not_mem (m : List (String × List TriangleAnno))
    (k : String) (h : k ∉ m.map Prod.fst) : groupLookup m k = [] := by
  induction m with
  | nil => rfl
  | cons g rest ih =>
    simp only [List.map_cons, List.mem_cons, not_or] at h
    have hne : ¬(g.1 == k) = true := by
      simp [beq_iff_eq]
      exact fun he => h.1 he.symm
    simp only [groupLookup, List.filter_cons, hne, if_false, ite_false]
    exact ih h.2

theorem groupLookup_insertGroup (m : List (String × List TriangleAnno))
    (k k' : String) (a : TriangleAnno) (hnd : (m.map Prod.fst).Nodup) :
    groupLookup (insertGroup m k' a) k =
      groupLookup m k ++ if k' = k then [a] else [] := by
  induction m with
  | nil =>
    by_cases h : k' = k <;>
      simp [insertGroup, groupLookup, List.filter_cons, h, beq_iff_eq]
  | cons g rest ih =>
    obtain ⟨k0, as⟩ := g
    simp only [List.map_cons, List.nodup_cons] at hnd
    by_cases h : k0 = k'
    · subst h
      simp only [insertGroup, if_pos rfl]
      by_cases h2 : k0 = k
      · subst h2
        have hrest : ((rest.filter (fun g => g.1 == k0)).map
            (fun g => g.2)).flatten = [] := by
          have := groupLookup_nil_of_not_mem rest k0 hnd.1
          simpa [groupLookup] using this
        simp [groupLookup, List.filter_cons, hrest]
      · simp [groupLookup, List.filter_cons, h2]
    · simp only [insertGroup, if_neg h]
      have hrec := ih hnd.2
      simp only [groupLookup] at hrec
      by_cases h2 : k0 = k
      · subst h2
        simp [groupLookup, List.filter_cons, hrec, List.append_assoc]
      · simp [groupLookup, List.filter_cons, h2, hrec]

theorem groupByKey_aux (l : List TriangleAnno)
    (acc : List (String × List TriangleAnno)) (k : String)
    (hnd : (acc.map Prod.fst).Nodup) :
    groupLookup (l.foldl (fun m a => insertGroup m (annoKey a) a) acc) k =
      groupLookup acc k ++ l.filter (fun a => annoKey a == k) ∧
    (((l.foldl (fun m a => insertGroup m (annoKey a) a) acc).map Prod.fst)).Nodup := by
  induction l generalizing acc with
  | nil => exact ⟨by simp, hnd⟩
  | cons a l ih =>
    simp only [List.foldl_cons]
    have hnd' := insertGroup_nodup (annoKey a) a hnd
    obtain ⟨h1, h2⟩ := ih (insertGroup acc (annoKey a) a) hnd'
    refine ⟨?_, h2⟩
    rw [h1, groupLookup_insertGroup acc k (annoKey a) a hnd, List.filter_cons]
    by_cases h : annoKey a = k
    · simp [h, List.append_assoc]
    · have hne : ¬(annoKey a == k) = true := by simp [beq_iff_eq, h]
      simp [h, hne]

theorem groupLookup_groupByKey (l : List TriangleAnno) (k : String) :
    groupLookup (groupByKey l) k = l.filter (fun a => annoKey a == k) := by
  have := (groupByKey_aux l [] k (by simp)).1
  simpa [groupByKey, groupLookup] using this

theorem groupByKey_keys_nodup (l : List TriangleAnno) :
    ((groupByKey l).map Prod.fst).Nodup :=
  (groupByKey_aux l [] "" (by simp)).2

theorem mkTrack_triangleId (g : String × List TriangleAnno) :
    (mkTrack g).triangleId = g.1 := by
  simp only [mkTrack]
  split <;> rfl

theorem mkTrack_annos (g : String × List TriangleAnno) :
    (mkTrack g).annotations =
      (g.2.mergeSort (fun a b => decide (a.start ≤ b.start))).map toTimeline := by
  simp only [mkTrack]
  split
  · next heq =>
    rw [heq]
    rfl
  · rfl

theorem flatten_sort_perm (gs : List (String × List TriangleAnno)) :
    ((gs.map (fun g =>
        (g.2.mergeSort (fun a b => decide (a.start ≤ b.start))).map toTimeline)).flatten).Perm
      ((gs.map (fun g => g.2.map toTimeline)).flatten) := by
  induction gs with
  | nil => exact List.Perm.refl _
  | cons g rest ih =>
    simp only [List.map_cons, List.flatten_cons]
    exact ((List.mergeSort_perm g.2 _).map toTimeline).append ih

theorem trackMembers_perm (l : List TriangleAnno) (k : String) :
    (trackMembers (createTriangleTracks l) k).Perm
      ((l.filter (fun a => annoKey a == k)).map toTimeline) := by
  unfold trackMembers createTriangleTracks
  rw [List.filter_map]
  have hpred : (groupByKey l).filter ((fun tr => tr.triangleId == k) ∘ mkTrack) =
      (groupByKey l).filter (fun g => g.1 == k) := by
    refine List.filter_congr ?_
    intro g _
    simp [Function.comp, mkTrack_triangleId]
  rw [hpred, List.map_map]
  have hmaps : List.map ((fun tr => tr.annotations) ∘ mkTrack)
        ((groupByKey l).filter (fun g => g.1 == k)) =
      List.map (fun g =>
        (g.2.mergeSort (fun a b => decide (a.start ≤ b.start))).map toTimeline)
        ((groupByKey l).filter (fun g => g.1 == k)) := by
    refine List.map_congr_left ?_
    intro g _
    simp [Function.comp, mkTrack_annos]
  rw [hmaps]
  refine (flatten_sort_perm _).trans ?_
  have : List.map (fun g => g.2.map toTimeline)
        ((groupByKey l).filter (fun g => g.1 == k)) =
      List.map (List.map toTimeline)
        (((groupByKey l).filter (fun g => g.1 == k)).map (fun g => g.2)) := by
    rw [List.map_map]
    rfl
  rw [this, ← List.map_flatten]
  have hlk : (((groupByKey l).filter (fun g => g.1 == k)).map (fun g => g.2)).flatten =
      groupLookup (groupByKey l) k := rfl
  rw [hlk, groupLookup_groupByKey]

/-- Claim C9: track derivation is order-independent and idempotent by
membership: for any two presentations of the same annotation multiset (any
permutation), every canonical key groups exactly the same annotations (up to
permutation of the members list), so re-grouping the same set yields the
same tracks by membership even though track iteration order may vary. -/
theorem createTriangleTracks_order_invariant (l₁ l₂ : List TriangleAnno)
    (hp : l₁.Perm l₂) (k : String) :
    (trackMembers (createTriangleTracks l₁) k).Perm
      (trackMembers (createTriangleTracks l₂) k) :=
  ((trackMembers_perm l₁ k).trans
    ((hp.filter (fun a => annoKey a == k)).map toTimeline)).trans
    (trackMembers_perm l₂ k).symm

theorem createTriangleTracks_order_invariant_witness :
    (trackMembers (createTriangleTracks [exAnno, exAnno2]) (annoKey exAnno)).Perm
      (trackMembers (createTriangleTracks [exAnno2, exAnno]) (annoKey exAnno)) :=
  createTriangleTracks_order_invariant [exAnno, exAnno2] [exAnno2, exAnno]
    (List.Perm.swap exAnno2 exAnno []) (annoKey exAnno)

theorem addAnnotationAt_time_bounds_witness :
    (updateAnnoTime oneAnnoState "anno-1" (some 5) (some 2)).annotations.map
      (fun a => (a.start, a.endT)) = [(5, 2)] :=
  (addAnnotationAt_time_bounds oneAnnoState (1/2) (1/2) "w-id"
    (by norm_num [oneAnnoState]) (Or.inl (by norm_num [oneAnnoState]))).2
